import Mathlib

/-!
Verification development for Gauche's thread-local / parameter subsystem
(src/parameter.c, src/gauche/priv/parameterP.h).

A `ScmVMThreadLocalTable` is a growable, index-addressed vector of Scheme
objects, one per VM (execution context).  Thread-local descriptors carry a
process-unique index allocated by a mutex-protected monotone counter; reads
and writes go through the descriptor's index into the calling VM's table,
with an "unbound" sentinel marking never-written slots and an optional
LAZY flag that forces deferred values (promises) on the way out.

Machine integers (`ScmSize`, the index counter) are modelled as `Nat`:
the C code treats index-space exhaustion as unreachable and never relies
on overflow.  `ScmObj` is modelled as an inductive value type with the
`SCM_UNBOUND` sentinel, references to promise cells (for lazy forcing),
and plain immediate data.
-/

/-- Model of `ScmObj`: the unbound sentinel `SCM_UNBOUND`, a reference to a
promise cell (deferred computation) identified by a cell id, or a plain
immediate datum. -/
inductive SObj where
  | unbound : SObj
  | sfalse : SObj
  | sym : String → SObj
  | prom : Nat → SObj
  | v : Int → SObj
deriving DecidableEq, Repr

/-- Modelled from the spec: promise cells (promise.c is not under src/).
A deferred computation either still holds its thunk (which, when run,
yields `result`) or has been forced, in which case the thunk is discarded
and only the concrete `result` remains cached in place. -/
inductive PromiseState where
  | deferred : SObj → PromiseState
  | forced : SObj → PromiseState
deriving DecidableEq, Repr

/-- The value a promise cell yields when forced, regardless of whether the
thunk has already run. -/
def PromiseState.result : PromiseState → SObj
  | .deferred r => r
  | .forced r => r

/-- Modelled from the spec: the store of promise cells, plus a counter of
how many times a deferred computation has actually been run (the spec's
"a counter inside the deferred computation"). -/
structure Heap where
  promises : List PromiseState
  forceCount : Nat
deriving DecidableEq, Repr

/-- Modelled from the spec: `Scm_Force` (promise.c is not under src/).
Forcing resolves a deferred computation to its concrete result, running
the thunk exactly once: on a still-deferred cell the thunk runs (the
force counter increments) and the cell is overwritten in place with the
forced result, discarding the wrapper's thunk; on an already-forced cell
the cached result is returned with no further work.  Forcing a
non-promise object returns it unchanged. -/
def Scm_Force (h : Heap) (x : SObj) : SObj × Heap :=
  match x with
  | .prom pid =>
    match h.promises[pid]? with
    | some (.deferred r) =>
        (r, { promises := h.promises.set pid (.forced r),
              forceCount := h.forceCount + 1 })
    | some (.forced r) => (r, h)
    | none => (x, h)
  | _ => (x, h)

/-- `THREAD_LOCAL_INIT_SIZE` from parameter.c. -/
def THREAD_LOCAL_INIT_SIZE : Nat := 64

/-- `THREAD_LOCAL_GROW` from parameter.c. -/
def THREAD_LOCAL_GROW : Nat := 16

/-- Model of `ScmVMThreadLocalTable`: the C struct holds a pointer
`vector` and its allocated length `size`; every code path keeps the two
consistent, so we model the pair as a single list whose length is the
capacity. -/
structure ScmVMThreadLocalTable where
  vector : List SObj
deriving DecidableEq, Repr

/-- The table's capacity (`size` field of the C struct). -/
def ScmVMThreadLocalTable.size (t : ScmVMThreadLocalTable) : Nat :=
  t.vector.length

/-- `Scm__MakeVMThreadLocalTable`: for the primordial thread
(`base == NULL`) a fresh table of `THREAD_LOCAL_INIT_SIZE` unbound slots;
for a spawned thread an element-wise copy of the creator's table. -/
def Scm__MakeVMThreadLocalTable (base : Option ScmVMThreadLocalTable) :
    ScmVMThreadLocalTable :=
  match base with
  | some b => { vector := b.vector.map id }
  | none => { vector := List.replicate THREAD_LOCAL_INIT_SIZE SObj.unbound }

/-- `ensure_tl_slot`: if `index` is beyond the current capacity, grow to
`((index+THREAD_LOCAL_GROW)/THREAD_LOCAL_GROW)*THREAD_LOCAL_GROW` slots,
copying the old contents and filling the new slots with `SCM_UNBOUND`.
(The C code also clears the abandoned old vector for the GC's sake; the
old vector is unreachable afterwards, so that write is not observable.) -/
def ensure_tl_slot (p : ScmVMThreadLocalTable) (index : Nat) :
    ScmVMThreadLocalTable :=
  if index ≥ p.size then
    let newsiz := ((index + THREAD_LOCAL_GROW) / THREAD_LOCAL_GROW) * THREAD_LOCAL_GROW
    { vector := p.vector ++ List.replicate (newsiz - p.size) SObj.unbound }
  else p

/-- Model of `ScmThreadLocal`: the descriptor's fields used by
parameter.c (`name`, `index`, `initialValue`, `flags`), plus the class it
was constructed with (`SCM_SET_CLASS` / `SCM_NEW_INSTANCE` both record
exactly the requested class; extra instance slots are outside this
model). -/
structure ScmThreadLocal where
  klass : Nat
  name : SObj
  index : Nat
  initialValue : SObj
  flags : Nat
deriving DecidableEq, Repr

/-- The `SCM_PARAMETER_LAZY` flag bit (defined in gauche/parameter.h,
outside src/; parameter.c only tests it with a bitwise and, so the
particular bit chosen is immaterial). -/
def SCM_PARAMETER_LAZY : Nat := 1

/-- The process-wide allocator state: `next_tl_index`, guarded in C by
`tl_mutex` around the read-and-increment. -/
structure GlobalState where
  next_tl_index : Nat
deriving DecidableEq, Repr

/-- `Scm_MakeThreadLocal`: take the next process-unique index under the
mutex, grow the calling VM's table so the index is addressable, and build
the descriptor.  (The two C allocation paths differ only in how the
instance memory is obtained; both record the same class and the same four
fields, so the model needs no branch on `klass`.)  Returns the descriptor
together with the updated allocator state and the caller's updated
table. -/
def Scm_MakeThreadLocal (g : GlobalState) (threadLocals : ScmVMThreadLocalTable)
    (klass : Nat) (name : SObj) (initval : SObj) (flags : Nat) :
    ScmThreadLocal × GlobalState × ScmVMThreadLocalTable :=
  let index := g.next_tl_index
  let g' : GlobalState := { next_tl_index := index + 1 }
  let t' := ensure_tl_slot threadLocals index
  ({ klass := klass, name := name, index := index,
     initialValue := initval, flags := flags }, g', t')

/-- `Scm_MakePrimitiveParameter`: TRANSIENT in the C source, a plain
cast-and-forward to `Scm_MakeThreadLocal`. -/
def Scm_MakePrimitiveParameter (g : GlobalState)
    (threadLocals : ScmVMThreadLocalTable)
    (klass : Nat) (name : SObj) (initval : SObj) (flags : Nat) :
    ScmThreadLocal × GlobalState × ScmVMThreadLocalTable :=
  Scm_MakeThreadLocal g threadLocals klass name initval flags

/-- The mutable state a `Scm_ThreadLocalRef`/`Scm_ThreadLocalSet` call
touches: the calling VM's thread-local table and the promise heap. -/
structure VMState where
  table : ScmVMThreadLocalTable
  heap : Heap
deriving DecidableEq, Repr

/-- `Scm_ThreadLocalRef`: if the descriptor's index is beyond the table's
capacity the result is the initial value and the table is untouched;
otherwise the slot is read, and an unbound slot is populated with the
initial value.  With the LAZY flag the result is forced before being
returned. -/
def Scm_ThreadLocalRef (s : VMState) (tl : ScmThreadLocal) : SObj × VMState :=
  let t := s.table
  let (result, s₁) :=
    if tl.index ≥ t.size then
      (tl.initialValue, s)
    else
      let r := t.vector.getD tl.index SObj.unbound
      if r = SObj.unbound then
        (tl.initialValue,
         { s with table := { vector := t.vector.set tl.index tl.initialValue } })
      else (r, s)
  if tl.flags &&& SCM_PARAMETER_LAZY ≠ 0 then
    let (fv, h') := Scm_Force s₁.heap result
    (fv, { s₁ with heap := h' })
  else (result, s₁)

/-- `Scm_PrimitiveParameterRef`: TRANSIENT cast-and-forward to
`Scm_ThreadLocalRef`. -/
def Scm_PrimitiveParameterRef (s : VMState) (p : ScmThreadLocal) :
    SObj × VMState :=
  Scm_ThreadLocalRef s p

/-- `Scm_ThreadLocalSet`: ensure the slot exists (growing the table if the
index was beyond capacity, in which case the old value is taken as
unbound), read the previous value, defaulting an unbound slot to the
initial value, store the new value verbatim, and return the previous
value (forced when the LAZY flag is set). -/
def Scm_ThreadLocalSet (s : VMState) (tl : ScmThreadLocal) (val : SObj) :
    SObj × VMState :=
  let t := s.table
  let (oldval, t₁) :=
    if tl.index ≥ t.size then
      (SObj.unbound, ensure_tl_slot t tl.index)
    else
      (t.vector.getD tl.index SObj.unbound, t)
  let oldval := if oldval = SObj.unbound then tl.initialValue else oldval
  let t₂ : ScmVMThreadLocalTable := { vector := t₁.vector.set tl.index val }
  let s₂ : VMState := { s with table := t₂ }
  if tl.flags &&& SCM_PARAMETER_LAZY ≠ 0 then
    let (fv, h') := Scm_Force s₂.heap oldval
    (fv, { s₂ with heap := h' })
  else (oldval, s₂)

/-- `Scm_PrimitiveParameterSet`: TRANSIENT cast-and-forward to
`Scm_ThreadLocalSet`. -/
def Scm_PrimitiveParameterSet (s : VMState) (p : ScmThreadLocal) (val : SObj) :
    SObj × VMState :=
  Scm_ThreadLocalSet s p val

/-- Outcome of invoking a parameter SUBR: a normal return carrying the
result value and the updated state, or an error raised via `Scm_Error`
(which unwinds before any table access, so an error carries no state
update). -/
inductive SubrOut where
  | ok : SObj → VMState → SubrOut
  | err : String → SubrOut
deriving DecidableEq, Repr

/-- The arity-error message of `prim_param_proc` / `general_param_proc`
(the `%S` format directive inserts the offending argument list and is
left unexpanded in the model). -/
def paramArityErrorMsg : String :=
  "Wrong number of arguments for a parameter: 0 or 1 argument(s) expected, but got %S"

/-- `prim_param_proc`: the direct callable wrapper.  The SUBR has zero
required and one optional parameter, so `argv[0]` is the list of actual
arguments: an empty list (not a pair) means read, a one-element list
means write through `Scm_PrimitiveParameterSet`, and a longer list
(`SCM_PAIRP(SCM_CDR(argv[0]))`) raises the arity error before touching
any table. -/
def prim_param_proc (s : VMState) (p : ScmThreadLocal) (args : List SObj) :
    SubrOut :=
  match args with
  | [] =>
    let (r, s') := Scm_PrimitiveParameterRef s p
    .ok r s'
  | [a] =>
    let (r, s') := Scm_PrimitiveParameterSet s p a
    .ok r s'
  | _ :: _ :: _ => .err paramArityErrorMsg

/-- `general_param_proc`: the guarded callable wrapper.  Reads go through
`Scm_PrimitiveParameterRef` directly; a one-argument call is redirected
through the Scheme-level setter bound to the name stored in
`parameter_set_proc_name` (the setter itself lives in the dynamic-binding
layer outside src/, so it is passed in as `setter`); two or more
arguments raise the arity error before touching any table. -/
def general_param_proc (setter : VMState → ScmThreadLocal → SObj → SObj × VMState)
    (s : VMState) (p : ScmThreadLocal) (args : List SObj) : SubrOut :=
  match args with
  | [] =>
    let (r, s') := Scm_PrimitiveParameterRef s p
    .ok r s'
  | [a] =>
    let (r, s') := setter s p a
    .ok r s'
  | _ :: _ :: _ => .err paramArityErrorMsg

/-- The Scheme-level setter used by `general_param_proc`
(`SCM_BIND_PROC` against the gauche.internal module). -/
def parameter_set_proc_name : String := "%parameter-set!"

/-- Which wrapper variant `Scm_MakePrimitiveParameterSubr` builds: the
direct one for exact instances of `SCM_CLASS_PRIMITIVE_PARAMETER`, the
guarded one otherwise. -/
inductive SubrVariant where
  | primitive : SubrVariant
  | general : SubrVariant
deriving DecidableEq, Repr

/-- The class object `SCM_CLASS_PRIMITIVE_PARAMETER` (classes are
modelled by their identity, a `Nat`). -/
def SCM_CLASS_PRIMITIVE_PARAMETER : Nat := 1

/-- The class object `SCM_CLASS_THREAD_LOCAL`. -/
def SCM_CLASS_THREAD_LOCAL : Nat := 0

/-- `Scm_MakePrimitiveParameterSubr`: picks the wrapper variant by
class-identity comparison and packages it with the parameter (the SUBR's
data and info fields both hold `p`). -/
def Scm_MakePrimitiveParameterSubr (p : ScmThreadLocal) :
    SubrVariant × ScmThreadLocal :=
  if p.klass = SCM_CLASS_PRIMITIVE_PARAMETER then
    (SubrVariant.primitive, p)
  else
    (SubrVariant.general, p)

/-- A module's bindings (`Scm_Define` appends a name-to-SUBR binding;
module internals live outside src/). -/
structure ScmModule where
  bindings : List (String × (SubrVariant × ScmThreadLocal))
deriving DecidableEq, Repr

/-- `Scm_BindPrimitiveParameter`: make a primitive parameter whose name
is the interned symbol `name` (`SCM_INTERN`), wrap it in a SUBR and
define it in `mod` under that name. -/
def Scm_BindPrimitiveParameter (g : GlobalState)
    (threadLocals : ScmVMThreadLocalTable) (mod : ScmModule)
    (name : String) (initval : SObj) (flags : Nat) :
    ScmThreadLocal × GlobalState × ScmVMThreadLocalTable × ScmModule :=
  let (p, g', t') :=
    Scm_MakePrimitiveParameter g threadLocals SCM_CLASS_PRIMITIVE_PARAMETER
      (SObj.sym name) initval flags
  let subr := Scm_MakePrimitiveParameterSubr p
  (p, g', t', { bindings := mod.bindings ++ [(name, subr)] })

/-!
The legacy backward-compatibility API (`GAUCHE_API_VERSION < 98` block).
`Scm_Warn` prints a warning and returns; `Scm_Panic` aborts the process
with a fatal error.  Each legacy entry point is modelled as the number of
deprecation warnings it emits together with either its normal result or
the panic message.
-/

/-- Outcome of a legacy API call: how many `Scm_Warn` warnings were
emitted, and either the normal result or the `Scm_Panic` message (a
panic aborts the process, so it yields no result). -/
structure LegacyOut (α : Type) where
  result : Except String α
  warnings : Nat

/-- `ScmParameterLoc`: the legacy out-parameter, holding a pointer to the
primitive parameter. -/
structure ScmParameterLoc where
  p : ScmThreadLocal
deriving DecidableEq, Repr

/-- `Scm_DefinePrimitiveParameter`: stores
`Scm_BindPrimitiveParameter(mod, name, initval, 0)` into the location.
It emits no warning. -/
def Scm_DefinePrimitiveParameter (g : GlobalState)
    (threadLocals : ScmVMThreadLocalTable) (mod : ScmModule)
    (name : String) (initval : SObj) :
    LegacyOut (ScmParameterLoc × GlobalState × ScmVMThreadLocalTable × ScmModule) :=
  let (p, g', t', mod') :=
    Scm_BindPrimitiveParameter g threadLocals mod name initval 0
  { result := .ok ({ p := p }, g', t', mod'), warnings := 0 }

/-- `Scm_ParameterRef` (legacy): warn, then forward to
`Scm_PrimitiveParameterRef`. -/
def Scm_ParameterRef (s : VMState) (loc : ScmParameterLoc) :
    LegacyOut (SObj × VMState) :=
  { result := .ok (Scm_PrimitiveParameterRef s loc.p), warnings := 1 }

/-- `Scm_ParameterSet` (legacy): warn, then forward to
`Scm_PrimitiveParameterSet`. -/
def Scm_ParameterSet (s : VMState) (loc : ScmParameterLoc) (value : SObj) :
    LegacyOut (SObj × VMState) :=
  { result := .ok (Scm_PrimitiveParameterSet s loc.p value), warnings := 1 }

/-- `Scm_InitParameterLoc` (legacy): warn, then store a fresh anonymous
primitive parameter (name `SCM_FALSE`, flags 0) into the location. -/
def Scm_InitParameterLoc (g : GlobalState)
    (threadLocals : ScmVMThreadLocalTable) (initval : SObj) :
    LegacyOut (ScmParameterLoc × GlobalState × ScmVMThreadLocalTable) :=
  let (p, g', t') :=
    Scm_MakePrimitiveParameter g threadLocals SCM_CLASS_PRIMITIVE_PARAMETER
      SObj.sfalse initval 0
  { result := .ok ({ p := p }, g', t'), warnings := 1 }

/-- `Scm_MakeParameterSlot` (legacy): warn, then call
`Scm_InitParameterLoc` with `SCM_FALSE` (which warns again). -/
def Scm_MakeParameterSlot (g : GlobalState)
    (threadLocals : ScmVMThreadLocalTable) :
    LegacyOut (ScmParameterLoc × GlobalState × ScmVMThreadLocalTable) :=
  let inner := Scm_InitParameterLoc g threadLocals SObj.sfalse
  { result := inner.result, warnings := 1 + inner.warnings }

/-- `Scm__VMParameterTableInit` (legacy): unconditionally calls
`Scm_Panic`, aborting the process; it emits no warning and never
forwards anywhere. -/
def Scm__VMParameterTableInit : LegacyOut Unit :=
  { result := .error "Scm__VMParameterTableInit is obsoleted.  Shouldn't be called.",
    warnings := 0 }

/-- One descriptor-creation request: the calling context's table at the
moment of the call, plus the construction arguments.  Different requests
may come from different contexts, so each carries its own table; the
allocator state is the only shared state and is threaded through. -/
structure TLRequest where
  threadLocals : ScmVMThreadLocalTable
  klass : Nat
  name : SObj
  initval : SObj
  flags : Nat

/-- A sequence of `Scm_MakeThreadLocal` calls (possibly from different
contexts), threading the process-wide allocator state; returns each
call's descriptor together with the calling context's table as updated
by that call. -/
def allocSequence (g : GlobalState) :
    List TLRequest → List (ScmThreadLocal × ScmVMThreadLocalTable)
  | [] => []
  | r :: rs =>
    let (tl, g', t') :=
      Scm_MakeThreadLocal g r.threadLocals r.klass r.name r.initval r.flags
    (tl, t') :: allocSequence g' rs

/-!  Helper lemmas. -/

theorem getD_set_self {α : Type} (l : List α) (i : Nat) (x d : α)
    (h : i < l.length) : (l.set i x).getD i d = x := by
  rw [List.getD_eq_getElem _ _ (by simpa using h)]
  simp [List.getElem_set]

theorem getD_set_ne {α : Type} (l : List α) (i j : Nat) (x d : α)
    (h : i ≠ j) : (l.set i x).getD j d = l.getD j d := by
  by_cases hj : j < l.length
  · rw [List.getD_eq_getElem _ _ (by simpa using hj), List.getD_eq_getElem _ _ hj]
    simp [List.getElem_set, h]
  · rw [List.getD_eq_default _ _ (by simpa using Nat.le_of_not_lt hj),
        List.getD_eq_default _ _ (Nat.le_of_not_lt hj)]

theorem getD_replicate {α : Type} (n i : Nat) (x d : α) (h : i < n) :
    (List.replicate n x).getD i d = x := by
  rw [List.getD_eq_getElem _ _ (by simpa using h)]
  simp

/-- The value that forcing `x` in heap `h` yields, as a pure observation
of the heap (forcing never changes which value a cell yields). -/
def Heap.pval (h : Heap) (x : SObj) : SObj :=
  match x with
  | .prom pid =>
    match h.promises[pid]? with
    | some st => st.result
    | none => x
  | _ => x

theorem Scm_Force_fst (h : Heap) (x : SObj) : (Scm_Force h x).1 = h.pval x := by
  cases x with
  | prom pid =>
    simp only [Scm_Force, Heap.pval]
    cases hc : h.promises[pid]? with
    | none => simp
    | some st => cases st <;> simp [PromiseState.result]
  | unbound => rfl
  | sfalse => rfl
  | sym n => rfl
  | v n => rfl

theorem Scm_Force_preserves_pval (h : Heap) (x y : SObj) :
    ((Scm_Force h x).2).pval y = h.pval y := by
  cases x with
  | unbound => rfl
  | sfalse => rfl
  | sym n => rfl
  | v n => rfl
  | prom pid =>
    simp only [Scm_Force]
    cases hc : h.promises[pid]? with
    | none => simp
    | some st =>
      cases st with
      | forced r => simp
      | deferred r =>
        simp only []
        have hlt : pid < h.promises.length := by
          by_contra hge
          rw [List.getElem?_eq_none (Nat.le_of_not_lt hge)] at hc
          exact Option.noConfusion hc
        cases y with
        | unbound => rfl
        | sfalse => rfl
        | sym n => rfl
        | v n => rfl
        | prom q =>
          simp only [Heap.pval]
          by_cases hq : q = pid
          · subst hq
            rw [List.getElem?_set_self (by simpa using hlt), hc]
            simp [PromiseState.result]
          · rw [List.getElem?_set_ne (by omega)]

theorem Scm_ThreadLocalRef_oob (s : VMState) (tl : ScmThreadLocal)
    (h : s.table.size ≤ tl.index) :
    Scm_ThreadLocalRef s tl =
      if tl.flags &&& SCM_PARAMETER_LAZY ≠ 0 then
        ((Scm_Force s.heap tl.initialValue).1,
         { s with heap := (Scm_Force s.heap tl.initialValue).2 })
      else (tl.initialValue, s) := by
  simp only [Scm_ThreadLocalRef, if_pos (show tl.index ≥ s.table.size from h)]

theorem Scm_ThreadLocalRef_unset (s : VMState) (tl : ScmThreadLocal)
    (h1 : tl.index < s.table.size)
    (h2 : s.table.vector.getD tl.index SObj.unbound = SObj.unbound) :
    Scm_ThreadLocalRef s tl =
      if tl.flags &&& SCM_PARAMETER_LAZY ≠ 0 then
        ((Scm_Force s.heap tl.initialValue).1,
         { table := { vector := s.table.vector.set tl.index tl.initialValue },
           heap := (Scm_Force s.heap tl.initialValue).2 })
      else (tl.initialValue,
            { s with table := { vector := s.table.vector.set tl.index tl.initialValue } }) := by
  simp only [Scm_ThreadLocalRef, if_neg (show ¬ tl.index ≥ s.table.size by omega),
    h2, if_pos rfl]
  simp

theorem Scm_ThreadLocalRef_written (s : VMState) (tl : ScmThreadLocal)
    (h1 : tl.index < s.table.size)
    (h2 : s.table.vector.getD tl.index SObj.unbound ≠ SObj.unbound) :
    Scm_ThreadLocalRef s tl =
      if tl.flags &&& SCM_PARAMETER_LAZY ≠ 0 then
        ((Scm_Force s.heap (s.table.vector.getD tl.index SObj.unbound)).1,
         { s with heap := (Scm_Force s.heap (s.table.vector.getD tl.index SObj.unbound)).2 })
      else (s.table.vector.getD tl.index SObj.unbound, s) := by
  simp only [Scm_ThreadLocalRef, if_neg (show ¬ tl.index ≥ s.table.size by omega),
    if_neg h2]

theorem Scm_ThreadLocalSet_oob (s : VMState) (tl : ScmThreadLocal) (v : SObj)
    (h : s.table.size ≤ tl.index) :
    Scm_ThreadLocalSet s tl v =
      if tl.flags &&& SCM_PARAMETER_LAZY ≠ 0 then
        ((Scm_Force s.heap tl.initialValue).1,
         { table := { vector := (ensure_tl_slot s.table tl.index).vector.set tl.index v },
           heap := (Scm_Force s.heap tl.initialValue).2 })
      else (tl.initialValue,
            { s with table :=
                { vector := (ensure_tl_slot s.table tl.index).vector.set tl.index v } }) := by
  simp only [Scm_ThreadLocalSet, if_pos (show tl.index ≥ s.table.size from h),
    if_pos rfl]
  simp

theorem Scm_ThreadLocalSet_unset (s : VMState) (tl : ScmThreadLocal) (v : SObj)
    (h1 : tl.index < s.table.size)
    (h2 : s.table.vector.getD tl.index SObj.unbound = SObj.unbound) :
    Scm_ThreadLocalSet s tl v =
      if tl.flags &&& SCM_PARAMETER_LAZY ≠ 0 then
        ((Scm_Force s.heap tl.initialValue).1,
         { table := { vector := s.table.vector.set tl.index v },
           heap := (Scm_Force s.heap tl.initialValue).2 })
      else (tl.initialValue,
            { s with table := { vector := s.table.vector.set tl.index v } }) := by
  simp only [Scm_ThreadLocalSet, if_neg (show ¬ tl.index ≥ s.table.size by omega),
    h2, if_pos rfl]
  simp

theorem Scm_ThreadLocalSet_written (s : VMState) (tl : ScmThreadLocal) (v : SObj)
    (h1 : tl.index < s.table.size)
    (h2 : s.table.vector.getD tl.index SObj.unbound ≠ SObj.unbound) :
    Scm_ThreadLocalSet s tl v =
      if tl.flags &&& SCM_PARAMETER_LAZY ≠ 0 then
        ((Scm_Force s.heap (s.table.vector.getD tl.index SObj.unbound)).1,
         { table := { vector := s.table.vector.set tl.index v },
           heap := (Scm_Force s.heap (s.table.vector.getD tl.index SObj.unbound)).2 })
      else (s.table.vector.getD tl.index SObj.unbound,
            { s with table := { vector := s.table.vector.set tl.index v } }) := by
  simp only [Scm_ThreadLocalSet, if_neg (show ¬ tl.index ≥ s.table.size by omega),
    if_neg h2]

theorem ensure_tl_slot_size_of_ge (t : ScmVMThreadLocalTable) (i : Nat)
    (h : t.size ≤ i) :
    (ensure_tl_slot t i).size =
      ((i + THREAD_LOCAL_GROW) / THREAD_LOCAL_GROW) * THREAD_LOCAL_GROW := by
  have h' : t.vector.length ≤ i := by
    simpa [ScmVMThreadLocalTable.size] using h
  simp only [ensure_tl_slot, ScmVMThreadLocalTable.size, THREAD_LOCAL_GROW]
  rw [if_pos (show i ≥ t.vector.length from h')]
  simp only [List.length_append, List.length_replicate]
  omega

theorem ensure_tl_slot_lt (t : ScmVMThreadLocalTable) (i : Nat) :
    i < (ensure_tl_slot t i).size := by
  by_cases h : t.size ≤ i
  · rw [ensure_tl_slot_size_of_ge t i h]
    simp only [THREAD_LOCAL_GROW]
    omega
  · rw [ensure_tl_slot, if_neg (show ¬ i ≥ t.size from h)]
    omega

theorem ensure_tl_slot_size_mono (t : ScmVMThreadLocalTable) (i : Nat) :
    t.size ≤ (ensure_tl_slot t i).size := by
  by_cases h : t.size ≤ i
  · rw [ensure_tl_slot_size_of_ge t i h]
    simp only [THREAD_LOCAL_GROW]
    omega
  · rw [ensure_tl_slot, if_neg (show ¬ i ≥ t.size from h)]

theorem ensure_tl_slot_getD_old (t : ScmVMThreadLocalTable) (i j : Nat)
    (d : SObj) (h : j < t.size) :
    (ensure_tl_slot t i).vector.getD j d = t.vector.getD j d := by
  by_cases hi : t.size ≤ i
  · simp only [ensure_tl_slot, if_pos (show i ≥ t.size from hi)]
    exact List.getD_append _ _ _ _ h
  · rw [ensure_tl_slot, if_neg (show ¬ i ≥ t.size from hi)]

/-- C5: `ensure_tl_slot` leaves the table unchanged when the index is
already within capacity, and otherwise grows it to
`((i+16)/16)*16` slots — at least `i+1` and a multiple of the growth
quantum 16 — filling every newly added slot with the unset sentinel,
preserving every previously existing slot's value in place, and never
decreasing the capacity. -/
theorem ensure_tl_slot_spec (t : ScmVMThreadLocalTable) (i : Nat) (d : SObj) :
    (i < t.size → ensure_tl_slot t i = t)
    ∧ (t.size ≤ i →
        (ensure_tl_slot t i).size =
          ((i + THREAD_LOCAL_GROW) / THREAD_LOCAL_GROW) * THREAD_LOCAL_GROW
        ∧ i + 1 ≤ (ensure_tl_slot t i).size
        ∧ (ensure_tl_slot t i).size % THREAD_LOCAL_GROW = 0
        ∧ (∀ j, t.size ≤ j → j < (ensure_tl_slot t i).size →
            (ensure_tl_slot t i).vector.getD j d = SObj.unbound))
    ∧ (∀ j, j < t.size → (ensure_tl_slot t i).vector.getD j d = t.vector.getD j d)
    ∧ t.size ≤ (ensure_tl_slot t i).size := by
  refine ⟨fun hlt => ?_, fun hge => ?_, fun j hj => ensure_tl_slot_getD_old t i j d hj,
    ensure_tl_slot_size_mono t i⟩
  · rw [ensure_tl_slot, if_neg (show ¬ i ≥ t.size by omega)]
  · refine ⟨ensure_tl_slot_size_of_ge t i hge, ?_, ?_, fun j hj1 hj2 => ?_⟩
    · exact ensure_tl_slot_lt t i
    · rw [ensure_tl_slot_size_of_ge t i hge]
      exact Nat.mul_mod_left _ _
    · rw [ensure_tl_slot_size_of_ge t i hge] at hj2
      simp only [ensure_tl_slot, if_pos (show i ≥ t.size from hge)]
      rw [List.getD_append_right _ _ _ _ (by simpa [ScmVMThreadLocalTable.size] using hj1)]
      refine getD_replicate _ _ _ _ ?_
      simp only [ScmVMThreadLocalTable.size] at *
      omega

/-- Witness for C5: at a table of two slots, index 1 is already within
capacity and the table is unchanged; index 9 is out of capacity and the
table grows to 16 slots, the new slots unset, the old two preserved. -/
theorem ensure_tl_slot_spec_witness :
    ensure_tl_slot { vector := [SObj.v 3, SObj.v 4] } 1 = { vector := [SObj.v 3, SObj.v 4] }
    ∧ (ensure_tl_slot { vector := [SObj.v 3, SObj.v 4] } 9).size = 16
    ∧ (ensure_tl_slot { vector := [SObj.v 3, SObj.v 4] } 9).vector.getD 5 (SObj.v 0) = SObj.unbound
    ∧ (ensure_tl_slot { vector := [SObj.v 3, SObj.v 4] } 9).vector.getD 1 (SObj.v 0) = SObj.v 4 := by
  have h1 := (ensure_tl_slot_spec { vector := [SObj.v 3, SObj.v 4] } 1 (SObj.v 0)).1 (by decide)
  have hX := ensure_tl_slot_spec { vector := [SObj.v 3, SObj.v 4] } 9 (SObj.v 0)
  have h2 := hX.2.1 (by decide)
  have h3 := h2.2.2.2 5 (by decide) (by decide)
  have h4 := hX.2.2.1 1 (by decide)
  refine ⟨h1, ?_, h3, by rw [h4]; decide⟩
  rw [h2.1]
  decide

/-- C1: reading a descriptor whose slot has never been written (slot out
of capacity, or holding the unset sentinel) returns exactly the
descriptor's `initialValue`, forced if the `LAZY` flag is set; when the
index is within capacity and the slot is unset, the read stores the
initial value into the slot; when the index is at or beyond capacity the
read leaves the table unchanged. -/
theorem threadLocalRef_never_written_spec (s : VMState) (tl : ScmThreadLocal)
    (h : s.table.size ≤ tl.index ∨
         s.table.vector.getD tl.index SObj.unbound = SObj.unbound) :
    (Scm_ThreadLocalRef s tl).1 =
      (if tl.flags &&& SCM_PARAMETER_LAZY ≠ 0 then (Scm_Force s.heap tl.initialValue).1
       else tl.initialValue)
    ∧ (tl.index < s.table.size →
        (Scm_ThreadLocalRef s tl).2.table.vector =
          s.table.vector.set tl.index tl.initialValue)
    ∧ (s.table.size ≤ tl.index → (Scm_ThreadLocalRef s tl).2.table = s.table) := by
  rcases Nat.lt_or_ge tl.index s.table.size with hlt | hge
  · have h2 : s.table.vector.getD tl.index SObj.unbound = SObj.unbound := by
      rcases h with h | h
      · omega
      · exact h
    rw [Scm_ThreadLocalRef_unset s tl hlt h2]
    by_cases hl : tl.flags &&& SCM_PARAMETER_LAZY ≠ 0
    · rw [if_pos hl, if_pos hl]
      exact ⟨rfl, fun _ => rfl, fun hge2 => by omega⟩
    · rw [if_neg hl, if_neg hl]
      exact ⟨rfl, fun _ => rfl, fun hge2 => by omega⟩
  · rw [Scm_ThreadLocalRef_oob s tl hge]
    by_cases hl : tl.flags &&& SCM_PARAMETER_LAZY ≠ 0
    · rw [if_pos hl, if_pos hl]
      exact ⟨rfl, fun hlt2 => by omega, fun _ => rfl⟩
    · rw [if_neg hl, if_neg hl]
      exact ⟨rfl, fun hlt2 => by omega, fun _ => rfl⟩

/-- Witness for C1: a fresh two-slot table; reading a non-lazy descriptor
with index 1 and initial value 7 returns 7 and stores 7 into slot 1;
reading one with index 5 (beyond capacity) returns 7 and leaves the
table unchanged. -/
theorem threadLocalRef_never_written_spec_witness :
    (Scm_ThreadLocalRef
        { table := { vector := [SObj.unbound, SObj.unbound] },
          heap := { promises := [], forceCount := 0 } }
        { klass := 0, name := SObj.sfalse, index := 1,
          initialValue := SObj.v 7, flags := 0 }).1 = SObj.v 7
    ∧ (Scm_ThreadLocalRef
        { table := { vector := [SObj.unbound, SObj.unbound] },
          heap := { promises := [], forceCount := 0 } }
        { klass := 0, name := SObj.sfalse, index := 1,
          initialValue := SObj.v 7, flags := 0 }).2.table.vector =
        [SObj.unbound, SObj.v 7]
    ∧ (Scm_ThreadLocalRef
        { table := { vector := [SObj.unbound, SObj.unbound] },
          heap := { promises := [], forceCount := 0 } }
        { klass := 0, name := SObj.sfalse, index := 5,
          initialValue := SObj.v 7, flags := 0 }).2.table =
        { vector := [SObj.unbound, SObj.unbound] } := by
  have hin := threadLocalRef_never_written_spec
    { table := { vector := [SObj.unbound, SObj.unbound] },
      heap := { promises := [], forceCount := 0 } }
    { klass := 0, name := SObj.sfalse, index := 1,
      initialValue := SObj.v 7, flags := 0 } (Or.inr (by decide))
  have hout := threadLocalRef_never_written_spec
    { table := { vector := [SObj.unbound, SObj.unbound] },
      heap := { promises := [], forceCount := 0 } }
    { klass := 0, name := SObj.sfalse, index := 5,
      initialValue := SObj.v 7, flags := 0 } (Or.inl (by decide))
  refine ⟨by rw [hin.1]; decide, by rw [hin.2.1 (by decide)]; decide,
    by rw [hout.2.2 (by decide)]⟩

/-- C2: for every descriptor, state and value, `Scm_ThreadLocalSet`
returns the value `Scm_ThreadLocalRef` would have returned immediately
before the write: the initial value (forced if `LAZY`) for a first write,
including when the index was beyond capacity, and the stored value
otherwise. -/
theorem threadLocalSet_returns_prior_read (s : VMState) (tl : ScmThreadLocal)
    (v : SObj) :
    (Scm_ThreadLocalSet s tl v).1 = (Scm_ThreadLocalRef s tl).1 := by
  rcases Nat.lt_or_ge tl.index s.table.size with hlt | hge
  · by_cases h2 : s.table.vector.getD tl.index SObj.unbound = SObj.unbound
    · rw [Scm_ThreadLocalSet_unset s tl v hlt h2, Scm_ThreadLocalRef_unset s tl hlt h2]
      by_cases hl : tl.flags &&& SCM_PARAMETER_LAZY ≠ 0
      · rw [if_pos hl, if_pos hl]
      · rw [if_neg hl, if_neg hl]
    · rw [Scm_ThreadLocalSet_written s tl v hlt h2, Scm_ThreadLocalRef_written s tl hlt h2]
      by_cases hl : tl.flags &&& SCM_PARAMETER_LAZY ≠ 0
      · rw [if_pos hl, if_pos hl]
      · rw [if_neg hl, if_neg hl]
  · rw [Scm_ThreadLocalSet_oob s tl v hge, Scm_ThreadLocalRef_oob s tl hge]
    by_cases hl : tl.flags &&& SCM_PARAMETER_LAZY ≠ 0
    · rw [if_pos hl, if_pos hl]
    · rw [if_neg hl, if_neg hl]

/-- C3: writing a value `v` (any Scheme value; `SCM_UNBOUND` is the
internal absence sentinel, not a value) stores it verbatim into the
descriptor's slot, and an immediately following read returns `v`, forced
only if the descriptor has the `LAZY` flag. -/
theorem threadLocalSet_then_ref_roundtrip (s : VMState) (tl : ScmThreadLocal)
    (v : SObj) (hv : v ≠ SObj.unbound) :
    (Scm_ThreadLocalSet s tl v).2.table.vector.getD tl.index SObj.unbound = v
    ∧ (Scm_ThreadLocalRef (Scm_ThreadLocalSet s tl v).2 tl).1 =
        (if tl.flags &&& SCM_PARAMETER_LAZY ≠ 0 then
          (Scm_Force (Scm_ThreadLocalSet s tl v).2.heap v).1
         else v) := by
  have hslot : (Scm_ThreadLocalSet s tl v).2.table.vector.getD tl.index SObj.unbound = v := by
    rcases Nat.lt_or_ge tl.index s.table.size with hlt | hge
    · by_cases h2 : s.table.vector.getD tl.index SObj.unbound = SObj.unbound
      · rw [Scm_ThreadLocalSet_unset s tl v hlt h2]
        by_cases hl : tl.flags &&& SCM_PARAMETER_LAZY ≠ 0
        · rw [if_pos hl]
          exact getD_set_self _ _ _ _ (by simpa [ScmVMThreadLocalTable.size] using hlt)
        · rw [if_neg hl]
          exact getD_set_self _ _ _ _ (by simpa [ScmVMThreadLocalTable.size] using hlt)
      · rw [Scm_ThreadLocalSet_written s tl v hlt h2]
        by_cases hl : tl.flags &&& SCM_PARAMETER_LAZY ≠ 0
        · rw [if_pos hl]
          exact getD_set_self _ _ _ _ (by simpa [ScmVMThreadLocalTable.size] using hlt)
        · rw [if_neg hl]
          exact getD_set_self _ _ _ _ (by simpa [ScmVMThreadLocalTable.size] using hlt)
    · have hlt2 : tl.index < (ensure_tl_slot s.table tl.index).size :=
        ensure_tl_slot_lt s.table tl.index
      rw [Scm_ThreadLocalSet_oob s tl v hge]
      by_cases hl : tl.flags &&& SCM_PARAMETER_LAZY ≠ 0
      · rw [if_pos hl]
        exact getD_set_self _ _ _ _ (by simpa [ScmVMThreadLocalTable.size] using hlt2)
      · rw [if_neg hl]
        exact getD_set_self _ _ _ _ (by simpa [ScmVMThreadLocalTable.size] using hlt2)
  have hsize : tl.index < (Scm_ThreadLocalSet s tl v).2.table.size := by
    by_contra hge
    rw [List.getD_eq_default] at hslot
    · exact hv hslot.symm
    · simpa [ScmVMThreadLocalTable.size] using hge
  refine ⟨hslot, ?_⟩
  rw [Scm_ThreadLocalRef_written (Scm_ThreadLocalSet s tl v).2 tl hsize
    (by rw [hslot]; exact hv), hslot]
  by_cases hl : tl.flags &&& SCM_PARAMETER_LAZY ≠ 0
  · rw [if_pos hl, if_pos hl]
  · rw [if_neg hl, if_neg hl]

/-- Witness for C3: writing 9 over initial value 7 in a fresh one-slot
table stores 9 and reads back 9. -/
theorem threadLocalSet_then_ref_roundtrip_witness :
    (Scm_ThreadLocalSet
        { table := { vector := [SObj.unbound] },
          heap := { promises := [], forceCount := 0 } }
        { klass := 0, name := SObj.sfalse, index := 0,
          initialValue := SObj.v 7, flags := 0 }
        (SObj.v 9)).2.table.vector.getD 0 SObj.unbound = SObj.v 9
    ∧ (Scm_ThreadLocalRef
        (Scm_ThreadLocalSet
          { table := { vector := [SObj.unbound] },
            heap := { promises := [], forceCount := 0 } }
          { klass := 0, name := SObj.sfalse, index := 0,
            initialValue := SObj.v 7, flags := 0 }
          (SObj.v 9)).2
        { klass := 0, name := SObj.sfalse, index := 0,
          initialValue := SObj.v 7, flags := 0 }).1 = SObj.v 9 := by
  have h := threadLocalSet_then_ref_roundtrip
    { table := { vector := [SObj.unbound] },
      heap := { promises := [], forceCount := 0 } }
    { klass := 0, name := SObj.sfalse, index := 0,
      initialValue := SObj.v 7, flags := 0 }
    (SObj.v 9) (by decide)
  exact ⟨h.1, by rw [h.2]; decide⟩

/-- C8: invoking either callable wrapper with zero arguments performs a
read of the caller's context; with exactly one argument the direct
wrapper performs the write through `Scm_PrimitiveParameterSet` and the
guarded wrapper redirects the write through the dynamic-binding layer's
own setter; with two or more arguments both raise the arity error naming
"0 or 1 argument(s) expected" before any table access (the error outcome
carries no state change). -/
theorem param_subr_arity_dispatch
    (setter : VMState → ScmThreadLocal → SObj → SObj × VMState)
    (s : VMState) (p : ScmThreadLocal) (a b : SObj) (rest : List SObj) :
    prim_param_proc s p [] =
      SubrOut.ok (Scm_PrimitiveParameterRef s p).1 (Scm_PrimitiveParameterRef s p).2
    ∧ prim_param_proc s p [a] =
        SubrOut.ok (Scm_PrimitiveParameterSet s p a).1 (Scm_PrimitiveParameterSet s p a).2
    ∧ prim_param_proc s p (a :: b :: rest) = SubrOut.err paramArityErrorMsg
    ∧ general_param_proc setter s p [] =
        SubrOut.ok (Scm_PrimitiveParameterRef s p).1 (Scm_PrimitiveParameterRef s p).2
    ∧ general_param_proc setter s p [a] =
        SubrOut.ok (setter s p a).1 (setter s p a).2
    ∧ general_param_proc setter s p (a :: b :: rest) = SubrOut.err paramArityErrorMsg
    ∧ paramArityErrorMsg =
        "Wrong number of arguments for a parameter: 0 or 1 argument(s) expected, but got %S" :=
  ⟨rfl, rfl, rfl, rfl, rfl, rfl, rfl⟩

/-- C9 counterexample: `Scm__VMParameterTableInit` is a legacy
backward-compatibility entry point that emits no deprecation warning and
raises a hard error (`Scm_Panic`) instead of forwarding, refuting the
claim that every legacy entry point warns and never raises a hard
error.  (`Scm_DefinePrimitiveParameter` is a second violation: it
forwards but emits no warning.) -/
theorem legacy_api_claim_counterexample :
    Scm__VMParameterTableInit.warnings = 0
    ∧ Scm__VMParameterTableInit.result =
        Except.error "Scm__VMParameterTableInit is obsoleted.  Shouldn't be called."
    ∧ (Scm_DefinePrimitiveParameter { next_tl_index := 0 } { vector := [] }
        { bindings := [] } "p" SObj.sfalse).warnings = 0 :=
  ⟨rfl, rfl, rfl⟩

/-- C9 amended: the legacy `Scm_ParameterRef`, `Scm_ParameterSet`,
`Scm_InitParameterLoc` and `Scm_MakeParameterSlot` entry points forward
to the current operations and emit deprecation warnings (1, 1, 1 and 2
per call respectively) and return normally; `Scm_DefinePrimitiveParameter`
forwards to `Scm_BindPrimitiveParameter` without emitting any warning;
and `Scm__VMParameterTableInit` does not forward at all: it
unconditionally raises a fatal panic. -/
theorem legacy_api_behavior (s : VMState) (loc : ScmParameterLoc)
    (value : SObj) (g : GlobalState) (t : ScmVMThreadLocalTable)
    (mod : ScmModule) (name : String) (initval : SObj) :
    (Scm_ParameterRef s loc).warnings = 1
    ∧ (Scm_ParameterRef s loc).result = Except.ok (Scm_PrimitiveParameterRef s loc.p)
    ∧ (Scm_ParameterSet s loc value).warnings = 1
    ∧ (Scm_ParameterSet s loc value).result =
        Except.ok (Scm_PrimitiveParameterSet s loc.p value)
    ∧ (Scm_InitParameterLoc g t initval).warnings = 1
    ∧ (Scm_InitParameterLoc g t initval).result =
        Except.ok
          (let r := Scm_MakePrimitiveParameter g t SCM_CLASS_PRIMITIVE_PARAMETER
            SObj.sfalse initval 0
           ({ p := r.1 }, r.2.1, r.2.2))
    ∧ (Scm_MakeParameterSlot g t).warnings = 2
    ∧ (Scm_MakeParameterSlot g t).result = (Scm_InitParameterLoc g t SObj.sfalse).result
    ∧ (Scm_DefinePrimitiveParameter g t mod name initval).warnings = 0
    ∧ (Scm_DefinePrimitiveParameter g t mod name initval).result =
        Except.ok
          (let r := Scm_BindPrimitiveParameter g t mod name initval 0
           ({ p := r.1 }, r.2.1, r.2.2.1, r.2.2.2))
    ∧ Scm__VMParameterTableInit.warnings = 0
    ∧ Scm__VMParameterTableInit.result =
        Except.error "Scm__VMParameterTableInit is obsoleted.  Shouldn't be called." :=
  ⟨rfl, rfl, rfl, rfl, rfl, rfl, rfl, rfl, rfl, rfl, rfl, rfl⟩

/-- C10: at this layer the primitive-parameter operations are exactly the
thread-local operations: `Scm_PrimitiveParameterRef`,
`Scm_PrimitiveParameterSet` and `Scm_MakePrimitiveParameter` are
cast-and-forward shims returning the very same results and effects as
`Scm_ThreadLocalRef`, `Scm_ThreadLocalSet` and `Scm_MakeThreadLocal` on
the same arguments. -/
theorem primitiveParameter_refines_threadLocal (s : VMState)
    (p : ScmThreadLocal) (val : SObj) (g : GlobalState)
    (t : ScmVMThreadLocalTable) (klass : Nat) (name : SObj) (initval : SObj)
    (flags : Nat) :
    Scm_PrimitiveParameterRef s p = Scm_ThreadLocalRef s p
    ∧ Scm_PrimitiveParameterSet s p val = Scm_ThreadLocalSet s p val
    ∧ Scm_MakePrimitiveParameter g t klass name initval flags =
        Scm_MakeThreadLocal g t klass name initval flags :=
  ⟨rfl, rfl, rfl⟩

theorem allocSequence_map_index (g : GlobalState) (reqs : List TLRequest) :
    (allocSequence g reqs).map (fun r => r.1.index) =
      List.range' g.next_tl_index reqs.length := by
  induction reqs generalizing g with
  | nil => rfl
  | cons r rs ih =>
    simp only [allocSequence, Scm_MakeThreadLocal, List.map_cons, List.length_cons,
      List.range'_succ, List.cons.injEq, true_and]
    simpa using ih { next_tl_index := g.next_tl_index + 1 }

theorem allocSequence_addressable (g : GlobalState) (reqs : List TLRequest) :
    ∀ x ∈ allocSequence g reqs, x.1.index < x.2.size := by
  induction reqs generalizing g with
  | nil => intro x hx; cases hx
  | cons r rs ih =>
    intro x hx
    simp only [allocSequence, Scm_MakeThreadLocal, List.mem_cons] at hx
    rcases hx with hx | hx
    · subst hx
      simpa using ensure_tl_slot_lt r.threadLocals g.next_tl_index
    · exact ih _ _ hx

/-- C6: starting from a fresh allocator, a sequence of
`Scm_MakeThreadLocal` calls — each possibly from a different context with
its own table — issues the indices 0, 1, 2, … in order: every call
returns an index strictly greater than all previously issued ones and no
index is ever reused; moreover each call grows the calling context's
table before returning, so the fresh index is within that table's
capacity. -/
theorem makeThreadLocal_alloc_spec (reqs : List TLRequest) :
    ((allocSequence { next_tl_index := 0 } reqs).map (fun r => r.1.index) =
      List.range reqs.length)
    ∧ ((allocSequence { next_tl_index := 0 } reqs).map (fun r => r.1.index)).Pairwise (· < ·)
    ∧ ∀ x ∈ allocSequence { next_tl_index := 0 } reqs, x.1.index < x.2.size := by
  have h := allocSequence_map_index { next_tl_index := 0 } reqs
  refine ⟨?_, ?_, allocSequence_addressable _ reqs⟩
  · rw [h]
    exact (List.range_eq_range' _).symm
  · rw [h, ← List.range_eq_range']
    exact List.pairwise_lt_range _

/-- Witness for C6: two creations from a context with an empty table
issue indices 0 and 1, and the first call's context table has grown to
make index 0 addressable. -/
theorem makeThreadLocal_alloc_spec_witness :
    ((allocSequence { next_tl_index := 0 }
        [{ threadLocals := { vector := [] }, klass := 0, name := SObj.sfalse,
           initval := SObj.v 1, flags := 0 },
         { threadLocals := { vector := [] }, klass := 0, name := SObj.sfalse,
           initval := SObj.v 1, flags := 0 }]).map (fun r => r.1.index) = [0, 1])
    ∧ (({ klass := 0, name := SObj.sfalse, index := 0, initialValue := SObj.v 1,
          flags := 0 } : ScmThreadLocal),
       ({ vector := List.replicate 16 SObj.unbound } : ScmVMThreadLocalTable)).1.index <
      (({ klass := 0, name := SObj.sfalse, index := 0, initialValue := SObj.v 1,
          flags := 0 } : ScmThreadLocal),
       ({ vector := List.replicate 16 SObj.unbound } : ScmVMThreadLocalTable)).2.size := by
  have H := makeThreadLocal_alloc_spec
    [{ threadLocals := { vector := [] }, klass := 0, name := SObj.sfalse,
       initval := SObj.v 1, flags := 0 },
     { threadLocals := { vector := [] }, klass := 0, name := SObj.sfalse,
       initval := SObj.v 1, flags := 0 }]
  refine ⟨by rw [H.1]; decide, H.2.2 _ (by decide)⟩

/-- C7: for a `LAZY` descriptor whose initial value is a still-deferred
promise and whose slot is unset, the first read runs the deferred
computation exactly once (the force counter increments by one), returns
its result, and leaves the promise cell forced in place with the thunk
discarded (the slot holds the promise reference, whose cell now contains
the concrete forced value); a second read returns the same value with no
state change at all — in particular the deferred computation does not run
again. -/
theorem lazy_first_read_forces_once (s : VMState) (tl : ScmThreadLocal)
    (pid : Nat) (r : SObj)
    (hlazy : tl.flags &&& SCM_PARAMETER_LAZY ≠ 0)
    (hinit : tl.initialValue = SObj.prom pid)
    (hcell : s.heap.promises[pid]? = some (PromiseState.deferred r))
    (hidx : tl.index < s.table.size)
    (hslot : s.table.vector.getD tl.index SObj.unbound = SObj.unbound) :
    (Scm_ThreadLocalRef s tl).1 = r
    ∧ (Scm_ThreadLocalRef s tl).2.heap.forceCount = s.heap.forceCount + 1
    ∧ (Scm_ThreadLocalRef s tl).2.heap.promises[pid]? = some (PromiseState.forced r)
    ∧ (Scm_ThreadLocalRef s tl).2.table.vector.getD tl.index SObj.unbound = SObj.prom pid
    ∧ Scm_ThreadLocalRef (Scm_ThreadLocalRef s tl).2 tl = (r, (Scm_ThreadLocalRef s tl).2) := by
  have hlt : pid < s.heap.promises.length := by
    by_contra hge
    rw [List.getElem?_eq_none (Nat.le_of_not_lt hge)] at hcell
    exact Option.noConfusion hcell
  have hforce : Scm_Force s.heap tl.initialValue =
      (r, { promises := s.heap.promises.set pid (PromiseState.forced r),
            forceCount := s.heap.forceCount + 1 }) := by
    rw [hinit]
    simp only [Scm_Force, hcell]
  rw [Scm_ThreadLocalRef_unset s tl hidx hslot, if_pos hlazy, hforce]
  have hslot1 : (s.table.vector.set tl.index tl.initialValue).getD tl.index SObj.unbound
      = SObj.prom pid := by
    rw [getD_set_self _ _ _ _ (by simpa [ScmVMThreadLocalTable.size] using hidx), hinit]
  refine ⟨rfl, rfl, ?_, hslot1, ?_⟩
  · simpa using List.getElem?_set_self (l := s.heap.promises)
      (a := PromiseState.forced r) (by simpa using hlt)
  · have hsz : tl.index <
        (ScmVMThreadLocalTable.mk (s.table.vector.set tl.index tl.initialValue)).size := by
      simpa [ScmVMThreadLocalTable.size] using hidx
    rw [Scm_ThreadLocalRef_written _ tl hsz (by rw [hslot1]; exact fun hcon => SObj.noConfusion hcon)]
    rw [if_pos hlazy, hslot1]
    have hf2 : Scm_Force
        { promises := s.heap.promises.set pid (PromiseState.forced r),
          forceCount := s.heap.forceCount + 1 } (SObj.prom pid) =
        (r, { promises := s.heap.promises.set pid (PromiseState.forced r),
              forceCount := s.heap.forceCount + 1 }) := by
      simp only [Scm_Force]
      rw [List.getElem?_set_self (by simpa using hlt)]
    rw [hf2]

/-- Witness for C7: a lazy descriptor over a one-slot table whose initial
value is a deferred computation yielding 42: the first read returns 42
and bumps the force counter from 0 to 1; the second read returns 42 and
changes nothing. -/
theorem lazy_first_read_forces_once_witness :
    (Scm_ThreadLocalRef
        { table := { vector := [SObj.unbound] },
          heap := { promises := [PromiseState.deferred (SObj.v 42)], forceCount := 0 } }
        { klass := 0, name := SObj.sfalse, index := 0,
          initialValue := SObj.prom 0, flags := 1 }).1 = SObj.v 42
    ∧ (Scm_ThreadLocalRef
        { table := { vector := [SObj.unbound] },
          heap := { promises := [PromiseState.deferred (SObj.v 42)], forceCount := 0 } }
        { klass := 0, name := SObj.sfalse, index := 0,
          initialValue := SObj.prom 0, flags := 1 }).2.heap.forceCount = 1
    ∧ Scm_ThreadLocalRef
        (Scm_ThreadLocalRef
          { table := { vector := [SObj.unbound] },
            heap := { promises := [PromiseState.deferred (SObj.v 42)], forceCount := 0 } }
          { klass := 0, name := SObj.sfalse, index := 0,
            initialValue := SObj.prom 0, flags := 1 }).2
        { klass := 0, name := SObj.sfalse, index := 0,
          initialValue := SObj.prom 0, flags := 1 } =
        (SObj.v 42,
         (Scm_ThreadLocalRef
           { table := { vector := [SObj.unbound] },
             heap := { promises := [PromiseState.deferred (SObj.v 42)], forceCount := 0 } }
           { klass := 0, name := SObj.sfalse, index := 0,
             initialValue := SObj.prom 0, flags := 1 }).2) := by
  have H := lazy_first_read_forces_once
    { table := { vector := [SObj.unbound] },
      heap := { promises := [PromiseState.deferred (SObj.v 42)], forceCount := 0 } }
    { klass := 0, name := SObj.sfalse, index := 0,
      initialValue := SObj.prom 0, flags := 1 }
    0 (SObj.v 42) (by decide) rfl (by decide) (by decide) (by decide)
  exact ⟨H.1, by rw [H.2.1], H.2.2.2.2⟩

theorem Scm_ThreadLocalRef_fst_pval (t : ScmVMThreadLocalTable) (h h' : Heap)
    (hp : ∀ x, h.pval x = h'.pval x) (tl : ScmThreadLocal) :
    (Scm_ThreadLocalRef { table := t, heap := h } tl).1 =
      (Scm_ThreadLocalRef { table := t, heap := h' } tl).1 := by
  rcases Nat.lt_or_ge tl.index t.size with hlt | hge
  · by_cases h2 : t.vector.getD tl.index SObj.unbound = SObj.unbound
    · rw [Scm_ThreadLocalRef_unset _ tl hlt h2, Scm_ThreadLocalRef_unset _ tl hlt h2]
      by_cases hl : tl.flags &&& SCM_PARAMETER_LAZY ≠ 0
      · rw [if_pos hl, if_pos hl]
        simp only [Scm_Force_fst]
        exact hp _
      · rw [if_neg hl, if_neg hl]
    · rw [Scm_ThreadLocalRef_written _ tl hlt h2, Scm_ThreadLocalRef_written _ tl hlt h2]
      by_cases hl : tl.flags &&& SCM_PARAMETER_LAZY ≠ 0
      · rw [if_pos hl, if_pos hl]
        simp only [Scm_Force_fst]
        exact hp _
      · rw [if_neg hl, if_neg hl]
  · rw [Scm_ThreadLocalRef_oob _ tl hge, Scm_ThreadLocalRef_oob _ tl hge]
    by_cases hl : tl.flags &&& SCM_PARAMETER_LAZY ≠ 0
    · rw [if_pos hl, if_pos hl]
      simp only [Scm_Force_fst]
      exact hp _
    · rw [if_neg hl, if_neg hl]

theorem Scm_ThreadLocalSet_heap_pval (s : VMState) (tl : ScmThreadLocal)
    (v : SObj) (x : SObj) :
    ((Scm_ThreadLocalSet s tl v).2.heap).pval x = s.heap.pval x := by
  rcases Nat.lt_or_ge tl.index s.table.size with hlt | hge
  · by_cases h2 : s.table.vector.getD tl.index SObj.unbound = SObj.unbound
    · rw [Scm_ThreadLocalSet_unset s tl v hlt h2]
      by_cases hl : tl.flags &&& SCM_PARAMETER_LAZY ≠ 0
      · rw [if_pos hl]
        exact Scm_Force_preserves_pval _ _ _
      · rw [if_neg hl]
    · rw [Scm_ThreadLocalSet_written s tl v hlt h2]
      by_cases hl : tl.flags &&& SCM_PARAMETER_LAZY ≠ 0
      · rw [if_pos hl]
        exact Scm_Force_preserves_pval _ _ _
      · rw [if_neg hl]
  · rw [Scm_ThreadLocalSet_oob s tl v hge]
    by_cases hl : tl.flags &&& SCM_PARAMETER_LAZY ≠ 0
    · rw [if_pos hl]
      exact Scm_Force_preserves_pval _ _ _
    · rw [if_neg hl]

/-- The concrete C4 scenario: descriptor `d0` with initial value 0, in
the primordial context A. -/
def isoD0 : ScmThreadLocal :=
  { klass := 0, name := SObj.sfalse, index := 0,
    initialValue := SObj.v 0, flags := 0 }

/-- Context A freshly created (primordial table, empty promise heap). -/
def isoA0 : VMState :=
  { table := Scm__MakeVMThreadLocalTable none,
    heap := { promises := [], forceCount := 0 } }

/-- Context A after `write(d0, A, 5)`. -/
def isoA1 : VMState := (Scm_ThreadLocalSet isoA0 isoD0 (SObj.v 5)).2

/-- Context B spawned from A (snapshot copy of A's table; the promise
heap is process-wide and shared). -/
def isoB0 : VMState :=
  { table := Scm__MakeVMThreadLocalTable (some isoA1.table),
    heap := isoA1.heap }

/-- Context B after `write(d0, B, 9)`. -/
def isoB1 : VMState := (Scm_ThreadLocalSet isoB0 isoD0 (SObj.v 9)).2

/-- C4: spawning a context yields a table of the same capacity with an
element-wise copy of the parent's contents, and the two tables are
independent afterwards: a write in the parent changes no value
observable by any read in the child's table (the shared promise heap can
only move cells from deferred to forced, which never changes the value a
read yields), and vice versa.  The concrete scenario: with `d0` of
initial value 0, `write(d0, A, 5)` returns 0, `read(d0, A)` gives 5,
spawning B from A gives `read(d0, B) = 5`, and after `write(d0, B, 9)`
still `read(d0, A) = 5`. -/
theorem spawn_snapshot_isolation (tA : ScmVMThreadLocalTable) (h : Heap)
    (d dq : ScmThreadLocal) (v : SObj) :
    (Scm__MakeVMThreadLocalTable (some tA)).size = tA.size
    ∧ (Scm__MakeVMThreadLocalTable (some tA)).vector = tA.vector
    ∧ ((Scm_ThreadLocalRef
          { table := Scm__MakeVMThreadLocalTable (some tA),
            heap := (Scm_ThreadLocalSet { table := tA, heap := h } d v).2.heap } dq).1
        = (Scm_ThreadLocalRef
          { table := Scm__MakeVMThreadLocalTable (some tA), heap := h } dq).1)
    ∧ ((Scm_ThreadLocalRef
          { table := tA,
            heap := (Scm_ThreadLocalSet
              { table := Scm__MakeVMThreadLocalTable (some tA), heap := h } d v).2.heap } dq).1
        = (Scm_ThreadLocalRef { table := tA, heap := h } dq).1)
    ∧ (Scm_ThreadLocalSet isoA0 isoD0 (SObj.v 5)).1 = SObj.v 0
    ∧ (Scm_ThreadLocalRef isoA1 isoD0).1 = SObj.v 5
    ∧ (Scm_ThreadLocalRef isoB0 isoD0).1 = SObj.v 5
    ∧ (Scm_ThreadLocalRef { table := isoA1.table, heap := isoB1.heap } isoD0).1 = SObj.v 5 := by
  refine ⟨by simp [Scm__MakeVMThreadLocalTable, ScmVMThreadLocalTable.size],
    by simp [Scm__MakeVMThreadLocalTable], ?_, ?_, by decide, by decide,
    by decide, by decide⟩
  · exact Scm_ThreadLocalRef_fst_pval _ _ _
      (fun x => Scm_ThreadLocalSet_heap_pval { table := tA, heap := h } d v x) dq
  · exact Scm_ThreadLocalRef_fst_pval _ _ _
      (fun x => Scm_ThreadLocalSet_heap_pval
        { table := Scm__MakeVMThreadLocalTable (some tA), heap := h } d v x) dq
